import Mathlib

/-!
Shallow embedding of a minimal MCP tool-calling demo: a tool host
(`server.py`) registering two tools, and an orchestrator
(`client_ollama.py`) running a single fixed-depth tool-calling turn
against a model backend.  External effects (the MCP connection, the two
`ollama.chat` requests, `json.loads`) are supplied by an environment
record `Env`; the orchestrator `main` is the deterministic function of
that environment that the Python source defines.
-/

set_option autoImplicit false

namespace MCPDemo

/-! ## Values and argument dictionaries -/

/-- A JSON-ish scalar value, enough for the two registered tools
(`add : int × int → int`, `greet : str → str`). -/
inductive ToolArgVal where
  | int (n : Int)
  | str (s : String)
  deriving DecidableEq, Repr

/-- A decoded arguments mapping, parameter name to value
(a Python `dict` of tool-call arguments). -/
abbrev ArgsDict := List (String × ToolArgVal)

/-! ## Tool host, from `src/server.py` -/

/-- `add` from `src/server.py`: `return a + b`. -/
def add (a b : Int) : Int := a + b

/-- `greet` from `src/server.py`: `return f"Hello, \x7bname\x7d!"`. -/
def greet (name : String) : String := "Hello, " ++ name ++ "!"

/-- Tool Invocation Result, the record `\x7bsuccess, value, error\x7d`
of the spec's data model. -/
structure InvocationResult where
  success : Bool
  value : Option ToolArgVal
  error : Option String
  deriving DecidableEq, Repr

/-- Modelled from the spec: the Tool Host's `call_tool` dispatch lives in
the external FastMCP framework, not under `src/`; `src/server.py` only
registers the two tools.  Lookup of the name and capture of failures into
`success = false` follow the spec's component design for the Tool Host;
the bodies of the two registered tools are the real ones from
`src/server.py` (`add`, `greet`), invoked when the arguments supply the
declared parameters at their declared types. -/
def call_tool (name : String) (args : ArgsDict) : InvocationResult :=
  if name = "add" then
    match List.lookup "a" args, List.lookup "b" args with
    | some (.int a), some (.int b) => ⟨true, some (.int (add a b)), none⟩
    | _, _ => ⟨false, none, some "invalid arguments for tool add"⟩
  else if name = "greet" then
    match List.lookup "name" args with
    | some (.str n) => ⟨true, some (.str (greet n)), none⟩
    | _ => ⟨false, none, some "invalid arguments for tool greet"⟩
  else
    ⟨false, none, some ("Unknown tool: " ++ name)⟩

/-! ## Tool descriptors and their translation, from `load_mcp_tools`
(`src/client_ollama.py`, lines 15-34) -/

/-- A tool descriptor as listed by the MCP server: `name`, `description`,
`inputSchema`.  The schema is carried opaquely (type parameter `σ`),
as the client passes it through verbatim. -/
structure MCPTool (σ : Type) where
  name : String
  description : String
  inputSchema : σ
  deriving DecidableEq, Repr

/-- The `function` object of the Ollama tool format. -/
structure OllamaFunction (σ : Type) where
  name : String
  description : String
  parameters : σ
  deriving DecidableEq, Repr

/-- An entry of the Ollama tool list:
`\x7b"type": "function", "function": \x7b...\x7d\x7d`. -/
structure OllamaTool (σ : Type) where
  type : String
  function : OllamaFunction σ
  deriving DecidableEq, Repr

/-- The conversion loop inside `load_mcp_tools`
(`src/client_ollama.py`, lines 22-33): each listed tool becomes one
Ollama-format entry, in order. -/
def convertTools {σ : Type} (ts : List (MCPTool σ)) : List (OllamaTool σ) :=
  ts.map fun t => ⟨"function", ⟨t.name, t.description, t.inputSchema⟩⟩

/-- `load_mcp_tools` (`src/client_ollama.py`, lines 15-39): on a
successful listing, the converted tool list; on any connection error,
`sys.exit(1)` (modelled as `Except.error 1`, the exit code). -/
def load_mcp_tools {σ : Type} (fetched : Except String (List (MCPTool σ))) :
    Except Nat (List (OllamaTool σ)) :=
  match fetched with
  | .error _ => .error 1
  | .ok ts => .ok (convertTools ts)

/-! ## Model messages and the conversation -/

/-- The `arguments` field of a model tool call: either already a
structured mapping or a string still to be decoded
(`src/client_ollama.py`, lines 94-98). -/
inductive ArgsField where
  | dict (args : ArgsDict)
  | str (raw : String)
  deriving DecidableEq, Repr

/-- One tool call requested by the model:
`tool_call["function"]["name"]` and `tool_call["function"]["arguments"]`. -/
structure ToolCall where
  name : String
  arguments : ArgsField
  deriving DecidableEq, Repr

/-- The model's message: role, content and the (possibly empty) list of
tool calls.  An absent `tool_calls` key is modelled by the empty list;
both are falsy in the Python check on line 84. -/
structure ChatMessage where
  role : String
  content : String
  tool_calls : List ToolCall
  deriving DecidableEq, Repr

/-- An `ollama.chat` response: the record holding `message`. -/
structure ChatResponse where
  message : ChatMessage
  deriving DecidableEq, Repr

/-- A conversation entry: either a plain `\x7b"role", "content"\x7d`
dict built by the client, or the model's message appended verbatim
(`response["message"]` on line 90). -/
inductive ConvMsg where
  | basic (role : String) (content : String)
  | modelMsg (m : ChatMessage)
  deriving DecidableEq, Repr

/-! ## Tool execution results and their rendering -/

/-- The Python value held in `tool_result`
(`src/client_ollama.py`, line 104): either a dict (only the
`\x7b"error": str(e)\x7d` dict arises in the source) or any other
object, carried as its `str()` rendering. -/
inductive PyVal where
  | dict (fields : List (String × String))
  | other (rendered : String)
  deriving DecidableEq, Repr

/-- `json.dumps` escaping for one character, restricted to the two
mandatory escapes: code point 92 is the backslash, 34 the double
quote. -/
def jsonEscapeChar (c : Char) : String :=
  if c.toNat = 92 then "\\\\"
  else if c.toNat = 34 then "\\\""
  else String.singleton c

/-- `json.dumps` escaping of a string body. -/
def jsonEscape (s : String) : String :=
  String.join (s.toList.map jsonEscapeChar)

/-- `json.dumps` of a flat string-valued dict, the only dict the source
ever serializes (`\x7b"error": str(e)\x7d`). -/
def json_dumps (fields : List (String × String)) : String :=
  "\x7b" ++
    String.intercalate ", "
      (fields.map fun kv => "\"" ++ jsonEscape kv.1 ++ "\": \"" ++ jsonEscape kv.2 ++ "\"") ++
    "\x7d"

/-- The `content` of a tool-result message
(`src/client_ollama.py`, lines 111-115): `json.dumps(tool_result)` when
the result is a dict, `str(tool_result)` otherwise. -/
def renderToolResult : PyVal → String
  | .dict fields => json_dumps fields
  | .other rendered => rendered

/-! ## The environment: outcomes of the external calls -/

/-- Outcomes of the run's external effects.  `listTools` is the MCP
listing attempted by `load_mcp_tools`; `chat1` the first `ollama.chat`
(fixed user message and tool list); `callTool` the outcome of
`mcp.call_tool` for one invocation — `.ok` carries the `str()` rendering
of the returned (non-dict) result object, `.error` the message of a
raised exception; `jsonLoads` models `json.loads` on argument strings
(`none` = raises `JSONDecodeError`); `chat2` the second `ollama.chat`
as a function of the accumulated messages. -/
structure Env where
  listTools : Except String (List (MCPTool String))
  chat1 : Except String ChatResponse
  callTool : String → ArgsDict → Except String String
  jsonLoads : String → Option ArgsDict
  chat2 : List ConvMsg → Except String ChatResponse

/-- `execute_tool` (`src/client_ollama.py`, lines 45-52): the invocation
result on success, and the dict `\x7b"error": str(e)\x7d` when any
exception is raised — the exception never propagates to the caller. -/
def execute_tool (env : Env) (tool_name : String) (arguments : ArgsDict) : PyVal :=
  match env.callTool tool_name arguments with
  | .ok rendered => .other rendered
  | .error e => .dict [("error", e)]

/-- Argument normalization (`src/client_ollama.py`, lines 96-98): a dict
is used as is; a string goes through `json.loads`, whose failure is NOT
caught there (`none` here). -/
def parseArgs (jsonLoads : String → Option ArgsDict) : ArgsField → Option ArgsDict
  | .dict args => some args
  | .str raw => jsonLoads raw

/-- State of the tool-call loop (`src/client_ollama.py`, lines 92-117):
the Tool Host invocations performed (in order), the tool-result messages
appended (in order), and `some msg` when an undecodable argument string
raised out of the loop. -/
structure LoopResult where
  invocations : List (String × ArgsDict)
  msgs : List ConvMsg
  crash : Option String
  deriving DecidableEq, Repr

/-- The tool-call loop (`src/client_ollama.py`, lines 92-117).  Each call
is processed in model order: arguments normalized (an undecodable string
raises, recording no invocation and stopping the loop), the tool executed
via `execute_tool`, and one `\x7b"role": "tool", "content": ...\x7d`
message appended. -/
def processToolCalls (env : Env) : List ToolCall → LoopResult
  | [] => ⟨[], [], none⟩
  | c :: rest =>
    match parseArgs env.jsonLoads c.arguments with
    | none => ⟨[], [], some ("JSONDecodeError while parsing arguments of " ++ c.name)⟩
    | some args =>
      let r := processToolCalls env rest
      ⟨(c.name, args) :: r.invocations,
       ConvMsg.basic "tool" (renderToolResult (execute_tool env c.name args)) :: r.msgs,
       r.crash⟩

/-- How one run of `main` ended: `sys.exit(code)`, an uncaught exception,
or a normal return after printing the answer. -/
inductive RunOutcome where
  | exited (code : Nat)
  | crashed (msg : String)
  | answered (answer : String)
  deriving DecidableEq, Repr

/-- Observable summary of one run of `main`: its outcome, the Tool Host
invocations performed (`mcp.call_tool`, in order; the initial tool
listing is not an invocation), the number of `ollama.chat` requests
issued, and the messages passed to the second `ollama.chat`
(`none` when no second model request was issued). -/
structure RunResult where
  outcome : RunOutcome
  invocations : List (String × ArgsDict)
  modelCalls : Nat
  finalMessages : Option (List ConvMsg)
  deriving DecidableEq, Repr

/-- The fixed user message of `src/client_ollama.py`, line 66. -/
def user_msg : String := "Please greet John and then add 150 + 75."

/-- `main` (`src/client_ollama.py`, lines 58-126) as a function of the
environment.  Branches in source order: unreachable MCP server ⇒
`sys.exit(1)` before any model call; failed first `ollama.chat` ⇒
`sys.exit(1)`; no tool calls ⇒ the model's content is the answer, no
second request; otherwise the tool-call loop runs, then the second
`ollama.chat` (not guarded by any `try`) over
`[user, model message] ++ tool results`. -/
def main (env : Env) : RunResult :=
  match load_mcp_tools env.listTools with
  | .error code => ⟨.exited code, [], 0, none⟩
  | .ok _tools =>
    match env.chat1 with
    | .error _ => ⟨.exited 1, [], 1, none⟩
    | .ok response =>
      if response.message.tool_calls = [] then
        ⟨.answered response.message.content, [], 1, none⟩
      else
        let r := processToolCalls env response.message.tool_calls
        match r.crash with
        | some e => ⟨.crashed e, r.invocations, 1, none⟩
        | none =>
          let messages := ConvMsg.basic "user" user_msg ::
            ConvMsg.modelMsg response.message :: r.msgs
          match env.chat2 messages with
          | .error e => ⟨.crashed e, r.invocations, 2, some messages⟩
          | .ok final => ⟨.answered final.message.content, r.invocations, 2, some messages⟩

/-- Specification-side decoding of a whole tool-call list: `some ds` when
every call's arguments normalize, pairing each call's name with its
decoded arguments, in order; `none` when some call's arguments fail to
decode. -/
def decodeCalls (jsonLoads : String → Option ArgsDict) :
    List ToolCall → Option (List (String × ArgsDict))
  | [] => some []
  | c :: rest =>
    match parseArgs jsonLoads c.arguments with
    | none => none
    | some args => (decodeCalls jsonLoads rest).map (fun ds => (c.name, args) :: ds)

/-! ## Concrete demonstration data for the closed instances -/

/-- A concrete listed tool set, as the demo server exposes it. -/
def demoTools : List (MCPTool String) :=
  [⟨"add", "Add two numbers", "schemaAdd"⟩, ⟨"greet", "", "schemaGreet"⟩]

/-- A model message answering directly, with no tool calls. -/
def respDirect : ChatResponse := ⟨⟨"assistant", "The answer is 225.", []⟩⟩

/-- Environment for a direct-answer run: the host lists its tools and the
model answers without requesting any tool. -/
def envDirect : Env :=
  ⟨.ok demoTools, .ok respDirect,
   fun _ _ => .error "unused", fun _ => none, fun _ => .error "unused"⟩

/-- The two tool calls of the demo scenario: `greet` with structured
arguments, `add` with arguments arriving as a JSON string. -/
def callsDemo : List ToolCall :=
  [⟨"greet", .dict [("name", .str "John")]⟩,
   ⟨"add", .str "\x7b\"a\": 150, \"b\": 75\x7d"⟩]

/-- The model's tool-call message for the demo scenario. -/
def respDemo : ChatResponse := ⟨⟨"assistant", "", callsDemo⟩⟩

/-- The decoded invocations the demo scenario should perform, in order. -/
def dsDemo : List (String × ArgsDict) :=
  [("greet", [("name", .str "John")]),
   ("add", [("a", .int 150), ("b", .int 75)])]

/-- A `json.loads` oracle decoding exactly the one argument string of the
demo scenario. -/
def demoLoads : String → Option ArgsDict :=
  fun s => if s = "\x7b\"a\": 150, \"b\": 75\x7d"
    then some [("a", .int 150), ("b", .int 75)] else none

/-- A Tool Host oracle answering the two demo invocations successfully
with the `str()` renderings of their results. -/
def demoCallTool : String → ArgsDict → Except String String :=
  fun name _ => if name = "greet" then .ok "Hello, John!"
    else if name = "add" then .ok "225" else .error ("Unknown tool: " ++ name)

/-- Environment for the full two-tool-call demo turn, both invocations
succeeding and the second model request answering. -/
def envDemo : Env :=
  ⟨.ok demoTools, .ok respDemo, demoCallTool, demoLoads,
   fun _ => .ok ⟨⟨"assistant", "Greeted John; 150 + 75 = 225.", []⟩⟩⟩

/-- Environment in which the second demo invocation (`add`) raises at the
Tool Host while `greet` succeeds. -/
def envOneFailure : Env :=
  ⟨.ok demoTools, .ok respDemo,
   (fun name _ => if name = "greet" then .ok "Hello, John!"
     else .error "Connection refused"),
   demoLoads,
   fun _ => .ok ⟨⟨"assistant", "greet worked, add failed", []⟩⟩⟩

/-- A model message requesting a single tool call whose arguments are a
string `json.loads` cannot decode. -/
def respMalformed : ChatResponse :=
  ⟨⟨"assistant", "", [⟨"add", .str "not json"⟩]⟩⟩

/-- Environment for the malformed-arguments run: one tool call with an
undecodable argument string. -/
def envMalformed : Env :=
  ⟨.ok demoTools, .ok respMalformed, demoCallTool, demoLoads,
   fun _ => .ok ⟨⟨"assistant", "unreached", []⟩⟩⟩

/-- A model message whose first call (`greet`) is well-formed and whose
second call carries an undecodable argument string. -/
def respMalformedSecond : ChatResponse :=
  ⟨⟨"assistant", "",
    [⟨"greet", .dict [("name", .str "John")]⟩, ⟨"add", .str "not json"⟩]⟩⟩

/-- Environment for the run whose second tool call has malformed
arguments. -/
def envMalformedSecond : Env :=
  ⟨.ok demoTools, .ok respMalformedSecond, demoCallTool, demoLoads,
   fun _ => .ok ⟨⟨"assistant", "unreached", []⟩⟩⟩

/-- Environment with an unreachable Tool Host: the tool listing raises. -/
def envHostDown : Env :=
  ⟨.error "All connection attempts failed", .error "unused",
   fun _ _ => .error "unused", fun _ => none, fun _ => .error "unused"⟩

/-- Environment with a reachable Tool Host but an unreachable model
backend: the first `ollama.chat` raises. -/
def envModelDown : Env :=
  ⟨.ok demoTools, .error "model llama3.2:latest not found",
   fun _ _ => .error "unused", fun _ => none, fun _ => .error "unused"⟩

/-! ## Lemmas about the tool-call loop -/

theorem decodeCalls_length (jl : String → Option ArgsDict) (calls : List ToolCall)
    (ds : List (String × ArgsDict)) (h : decodeCalls jl calls = some ds) :
    ds.length = calls.length := by
  induction calls generalizing ds with
  | nil =>
    simp only [decodeCalls, Option.some.injEq] at h
    subst h; rfl
  | cons c rest ih =>
    unfold decodeCalls at h
    cases hp : parseArgs jl c.arguments with
    | none => rw [hp] at h; exact absurd h (by simp)
    | some args =>
      rw [hp] at h
      cases hd : decodeCalls jl rest with
      | none => rw [hd] at h; exact absurd h (by simp)
      | some ds' =>
        rw [hd] at h
        simp at h
        subst h
        simp [ih ds' hd]

theorem decodeCalls_names (jl : String → Option ArgsDict) (calls : List ToolCall)
    (ds : List (String × ArgsDict)) (h : decodeCalls jl calls = some ds) :
    ds.map Prod.fst = calls.map ToolCall.name := by
  induction calls generalizing ds with
  | nil =>
    simp only [decodeCalls, Option.some.injEq] at h
    subst h; rfl
  | cons c rest ih =>
    unfold decodeCalls at h
    cases hp : parseArgs jl c.arguments with
    | none => rw [hp] at h; exact absurd h (by simp)
    | some args =>
      rw [hp] at h
      cases hd : decodeCalls jl rest with
      | none => rw [hd] at h; exact absurd h (by simp)
      | some ds' =>
        rw [hd] at h
        simp at h
        subst h
        simp [ih ds' hd]

/-- When every argument field decodes, the loop performs exactly the
decoded invocations, appends exactly their rendered results as
`role = "tool"` messages, and does not raise. -/
theorem processToolCalls_decoded (env : Env) (calls : List ToolCall)
    (ds : List (String × ArgsDict)) (h : decodeCalls env.jsonLoads calls = some ds) :
    processToolCalls env calls =
      ⟨ds,
       ds.map (fun p => ConvMsg.basic "tool" (renderToolResult (execute_tool env p.1 p.2))),
       none⟩ := by
  induction calls generalizing ds with
  | nil =>
    simp only [decodeCalls, Option.some.injEq] at h
    subst h; rfl
  | cons c rest ih =>
    unfold decodeCalls at h
    cases hp : parseArgs env.jsonLoads c.arguments with
    | none => rw [hp] at h; exact absurd h (by simp)
    | some args =>
      rw [hp] at h
      cases hd : decodeCalls env.jsonLoads rest with
      | none => rw [hd] at h; exact absurd h (by simp)
      | some ds' =>
        rw [hd] at h
        simp at h
        subst h
        unfold processToolCalls
        rw [hp, ih ds' hd]
        rfl

/-- When a prefix decodes and the next call's arguments do not, the loop
performs exactly the prefix's invocations and raises at the offending
call; nothing after it is processed. -/
theorem processToolCalls_crashAt (env : Env) (pre : List ToolCall) (c : ToolCall)
    (post : List ToolCall) (ds : List (String × ArgsDict))
    (hpre : decodeCalls env.jsonLoads pre = some ds)
    (hc : parseArgs env.jsonLoads c.arguments = none) :
    processToolCalls env (pre ++ c :: post) =
      ⟨ds,
       ds.map (fun p => ConvMsg.basic "tool" (renderToolResult (execute_tool env p.1 p.2))),
       some ("JSONDecodeError while parsing arguments of " ++ c.name)⟩ := by
  induction pre generalizing ds with
  | nil =>
    simp only [decodeCalls, Option.some.injEq] at hpre
    subst hpre
    simp only [List.nil_append]
    unfold processToolCalls
    rw [hc]
    rfl
  | cons p rest ih =>
    unfold decodeCalls at hpre
    cases hp : parseArgs env.jsonLoads p.arguments with
    | none => rw [hp] at hpre; exact absurd hpre (by simp)
    | some args =>
      rw [hp] at hpre
      cases hd : decodeCalls env.jsonLoads rest with
      | none => rw [hd] at hpre; exact absurd hpre (by simp)
      | some ds' =>
        rw [hd] at hpre
        simp at hpre
        subst hpre
        simp only [List.cons_append]
        unfold processToolCalls
        rw [hp, ih ds' hd]
        rfl

/-! ## Claim theorems -/

/-- Claim C1: for every model response containing N tool-call requests
(N ≥ 1) whose arguments all decode, the turn performs exactly the N
Tool Host invocations, strictly in the model's order, appends exactly N
tool-result messages after the user message and the model's tool-call
message, and then issues the final model request, whose response content
is the turn's final answer. -/
theorem main_n_tool_calls (env : Env) (ts : List (MCPTool String))
    (resp finalResp : ChatResponse) (ds : List (String × ArgsDict))
    (hlist : env.listTools = .ok ts)
    (hchat : env.chat1 = .ok resp)
    (hne : resp.message.tool_calls ≠ [])
    (hdec : decodeCalls env.jsonLoads resp.message.tool_calls = some ds)
    (hfin : env.chat2 (ConvMsg.basic "user" user_msg :: ConvMsg.modelMsg resp.message ::
        ds.map (fun p => ConvMsg.basic "tool" (renderToolResult (execute_tool env p.1 p.2)))) =
      .ok finalResp) :
    main env =
      ⟨.answered finalResp.message.content, ds, 2,
       some (ConvMsg.basic "user" user_msg :: ConvMsg.modelMsg resp.message ::
         ds.map (fun p => ConvMsg.basic "tool" (renderToolResult (execute_tool env p.1 p.2))))⟩ ∧
    ds.length = resp.message.tool_calls.length ∧
    ds.map Prod.fst = resp.message.tool_calls.map ToolCall.name := by
  refine ⟨?_, decodeCalls_length _ _ _ hdec, decodeCalls_names _ _ _ hdec⟩
  have hp := processToolCalls_decoded env resp.message.tool_calls ds hdec
  unfold main load_mcp_tools
  rw [hlist, hchat]
  simp only [if_neg hne, hp, hfin]

/-- Claim C1 witness: the demo scenario with two tool calls (`greet`
with structured arguments, `add` with a JSON-string argument). -/
theorem main_n_tool_calls_witness :
    main envDemo =
      ⟨.answered "Greeted John; 150 + 75 = 225.", dsDemo, 2,
       some (ConvMsg.basic "user" user_msg :: ConvMsg.modelMsg respDemo.message ::
         dsDemo.map (fun p => ConvMsg.basic "tool" (renderToolResult (execute_tool envDemo p.1 p.2))))⟩ ∧
    dsDemo.length = respDemo.message.tool_calls.length ∧
    dsDemo.map Prod.fst = respDemo.message.tool_calls.map ToolCall.name :=
  main_n_tool_calls envDemo demoTools respDemo
    ⟨⟨"assistant", "Greeted John; 150 + 75 = 225.", []⟩⟩ dsDemo
    rfl rfl (by decide) (by decide) rfl

/-- Claim C2: a model response with no tool-call requests makes the turn
return that message's content unchanged as the final answer, with zero
Tool Host invocations and no second model request. -/
theorem main_direct_answer (env : Env) (ts : List (MCPTool String)) (resp : ChatResponse)
    (hlist : env.listTools = .ok ts)
    (hchat : env.chat1 = .ok resp)
    (hnone : resp.message.tool_calls = []) :
    main env = ⟨.answered resp.message.content, [], 1, none⟩ := by
  unfold main load_mcp_tools
  rw [hlist, hchat]
  simp only [if_pos hnone]

/-- Claim C2 witness: the direct-answer environment. -/
theorem main_direct_answer_witness :
    main envDirect = ⟨.answered "The answer is 225.", [], 1, none⟩ :=
  main_direct_answer envDirect demoTools respDirect rfl rfl rfl

/-- Claim C3: invoking the registered tool `add` with integer arguments
`a`, `b` succeeds with value `a + b`, and invoking `greet` with a string
`name` succeeds with value `"Hello, " ++ name ++ "!"`. -/
theorem call_tool_registered (a b : Int) (name : String) :
    call_tool "add" [("a", .int a), ("b", .int b)] =
      ⟨true, some (.int (a + b)), none⟩ ∧
    call_tool "greet" [("name", .str name)] =
      ⟨true, some (.str ("Hello, " ++ name ++ "!")), none⟩ :=
  ⟨rfl, rfl⟩

/-- Claim C4: in a turn whose tool-call arguments all decode, a Tool
Host failure at any single invocation is captured as the structured
failure dict and appended at that call's position, while every
invocation of the turn is still performed and the final model request is
still issued. -/
theorem main_tool_failure_isolated (env : Env) (ts : List (MCPTool String))
    (resp : ChatResponse) (ds : List (String × ArgsDict)) (i : Nat) (e : String)
    (hlist : env.listTools = .ok ts)
    (hchat : env.chat1 = .ok resp)
    (hne : resp.message.tool_calls ≠ [])
    (hdec : decodeCalls env.jsonLoads resp.message.tool_calls = some ds)
    (hi : i < ds.length)
    (hfail : env.callTool (ds.get ⟨i, hi⟩).1 (ds.get ⟨i, hi⟩).2 = .error e) :
    (main env).invocations = ds ∧
    (main env).modelCalls = 2 ∧
    ∃ msgs, (main env).finalMessages =
        some (ConvMsg.basic "user" user_msg :: ConvMsg.modelMsg resp.message :: msgs) ∧
      msgs.length = ds.length ∧
      msgs[i]? = some (ConvMsg.basic "tool" (json_dumps [("error", e)])) := by
  have hp := processToolCalls_decoded env resp.message.tool_calls ds hdec
  have hmain : ∃ msgs, main env =
      ⟨(main env).outcome, ds, 2,
       some (ConvMsg.basic "user" user_msg :: ConvMsg.modelMsg resp.message :: msgs)⟩ ∧
      msgs = ds.map (fun p => ConvMsg.basic "tool" (renderToolResult (execute_tool env p.1 p.2))) := by
    unfold main load_mcp_tools
    rw [hlist, hchat]
    simp only [if_neg hne, hp]
    cases env.chat2 (ConvMsg.basic "user" user_msg :: ConvMsg.modelMsg resp.message ::
        ds.map (fun p => ConvMsg.basic "tool" (renderToolResult (execute_tool env p.1 p.2)))) with
    | error e' => exact ⟨_, rfl, rfl⟩
    | ok fin => exact ⟨_, rfl, rfl⟩
  obtain ⟨msgs, hm, hmsgs⟩ := hmain
  refine ⟨by rw [hm], by rw [hm], msgs, by rw [hm], ?_, ?_⟩
  · rw [hmsgs, List.length_map]
  · rw [hmsgs, List.getElem?_map, List.getElem?_eq_getElem hi]
    have : execute_tool env (ds.get ⟨i, hi⟩).1 (ds.get ⟨i, hi⟩).2 = .dict [("error", e)] := by
      unfold execute_tool
      rw [hfail]
    simp only [Option.map_some']
    have hgd : ds[i] = ds.get ⟨i, hi⟩ := rfl
    rw [hgd, this]
    rfl

/-- Claim C4 witness: the demo scenario in which the `add` invocation
raises "Connection refused" while `greet` succeeds. -/
theorem main_tool_failure_isolated_witness :
    (main envOneFailure).invocations = dsDemo ∧
    (main envOneFailure).modelCalls = 2 ∧
    ∃ msgs, (main envOneFailure).finalMessages =
        some (ConvMsg.basic "user" user_msg :: ConvMsg.modelMsg respDemo.message :: msgs) ∧
      msgs.length = dsDemo.length ∧
      msgs[1]? = some (ConvMsg.basic "tool" (json_dumps [("error", "Connection refused")])) :=
  main_tool_failure_isolated envOneFailure demoTools respDemo dsDemo 1 "Connection refused"
    rfl rfl (by decide) (by decide) (by decide) rfl

/-- Claim C5 counterexample: in the run whose single tool call carries
the undecodable argument string "not json", `json.loads` raises outside
any `try` (`src/client_ollama.py`, line 98): the turn is aborted by the
uncaught exception, no failure result is recorded in the conversation,
no invocation is performed, and no further model request is issued —
contradicting the claim that malformed arguments follow the recoverable
per-tool-failure path. -/
theorem main_malformed_args_cex :
    main envMalformed =
      ⟨.crashed "JSONDecodeError while parsing arguments of add", [], 1, none⟩ := by
  decide

/-- Claim C5 as amended: a tool call whose arguments arrive as a string
that cannot be decoded raises an uncaught decoding error that aborts the
turn: the calls before it are invoked, no failure result for it is
recorded in the conversation, the calls after it are not processed, and
no final model request is issued. -/
theorem main_malformed_args_aborts (env : Env) (ts : List (MCPTool String))
    (resp : ChatResponse) (pre : List ToolCall) (c : ToolCall) (post : List ToolCall)
    (ds : List (String × ArgsDict))
    (hlist : env.listTools = .ok ts)
    (hchat : env.chat1 = .ok resp)
    (htc : resp.message.tool_calls = pre ++ c :: post)
    (hpre : decodeCalls env.jsonLoads pre = some ds)
    (hc : parseArgs env.jsonLoads c.arguments = none) :
    main env =
      ⟨.crashed ("JSONDecodeError while parsing arguments of " ++ c.name), ds, 1, none⟩ := by
  have hcr := processToolCalls_crashAt env pre c post ds hpre hc
  unfold main load_mcp_tools
  rw [hlist, hchat]
  simp only [htc, hcr, if_neg (show ¬(pre ++ c :: post = ([] : List ToolCall)) by simp)]

/-- Claim C5 amended-theorem witness: the run whose first call (`greet`)
is well-formed and invoked, and whose second call (`add`) carries the
undecodable string "not json". -/
theorem main_malformed_args_aborts_witness :
    main envMalformedSecond =
      ⟨.crashed ("JSONDecodeError while parsing arguments of " ++ "add"),
       [("greet", [("name", .str "John")])], 1, none⟩ :=
  main_malformed_args_aborts envMalformedSecond demoTools respMalformedSecond
    [⟨"greet", .dict [("name", .str "John")]⟩] ⟨"add", .str "not json"⟩ []
    [("greet", [("name", .str "John")])] rfl rfl rfl (by decide) (by decide)

/-- Claim C6: invoking a tool name that is not registered returns a
result with `success = false` and a non-empty error message; `call_tool`
is total (its return type has no exception channel), so nothing is
raised past the invocation boundary. -/
theorem call_tool_unregistered (name : String) (args : ArgsDict)
    (h1 : name ≠ "add") (h2 : name ≠ "greet") :
    (call_tool name args).success = false ∧
    ∃ e, (call_tool name args).error = some e ∧ e ≠ "" := by
  unfold call_tool
  rw [if_neg h1, if_neg h2]
  refine ⟨rfl, "Unknown tool: " ++ name, rfl, ?_⟩
  intro hcontra
  have hlen := congrArg String.length hcontra
  rw [String.length_append] at hlen
  have h14 : ("Unknown tool: ").length = 14 := rfl
  have h0 : ("" : String).length = 0 := rfl
  rw [h14, h0] at hlen
  omega

/-- Claim C6 witness: the unregistered name "multiply". -/
theorem call_tool_unregistered_witness :
    (call_tool "multiply" []).success = false ∧
    ∃ e, (call_tool "multiply" []).error = some e ∧ e ≠ "" :=
  call_tool_unregistered "multiply" [] (by decide) (by decide)

/-- Claim C7: when the Tool Host is unreachable at startup (the tool
listing raises), the process exits with code 1 (non-zero) after the
error report, with zero model calls attempted and zero invocations. -/
theorem main_host_unreachable (env : Env) (e : String)
    (h : env.listTools = .error e) :
    main env = ⟨.exited 1, [], 0, none⟩ := by
  unfold main load_mcp_tools
  rw [h]

/-- Claim C7 witness: the environment whose MCP connection fails. -/
theorem main_host_unreachable_witness :
    main envHostDown = ⟨.exited 1, [], 0, none⟩ :=
  main_host_unreachable envHostDown "All connection attempts failed" rfl

/-- Claim C8: when the first model request fails (backend unreachable or
model not installed), the run is fatal: the process exits with code 1
(non-zero) after the remediation report, with exactly the one failed
model request attempted and zero Tool Host invocations. -/
theorem main_model_unreachable (env : Env) (ts : List (MCPTool String)) (e : String)
    (hlist : env.listTools = .ok ts)
    (hchat : env.chat1 = .error e) :
    main env = ⟨.exited 1, [], 1, none⟩ := by
  unfold main load_mcp_tools
  rw [hlist, hchat]

/-- Claim C8 witness: the environment whose first `ollama.chat` fails
with a model-not-found error. -/
theorem main_model_unreachable_witness :
    main envModelDown = ⟨.exited 1, [], 1, none⟩ :=
  main_model_unreachable envModelDown demoTools "model llama3.2:latest not found" rfl rfl

theorem convertTools_types {σ : Type} (ts : List (MCPTool σ)) :
    (convertTools ts).map OllamaTool.type = List.replicate ts.length "function" := by
  induction ts with
  | nil => rfl
  | cons t rest ih => simp [convertTools, List.replicate_succ] at ih ⊢; exact ih

/-- Claim C9: the translation of a fetched tool list into the model's
format preserves the list's length and order, gives every entry the
shape `type = "function"`, and carries each tool's name, description and
input schema through unchanged into the `function` object. -/
theorem load_mcp_tools_translation {σ : Type} (ts : List (MCPTool σ)) :
    load_mcp_tools (.ok ts) = .ok (convertTools ts) ∧
    (convertTools ts).length = ts.length ∧
    (convertTools ts).map OllamaTool.type = List.replicate ts.length "function" ∧
    (convertTools ts).map (fun o => o.function.name) = ts.map MCPTool.name ∧
    (convertTools ts).map (fun o => o.function.description) = ts.map MCPTool.description ∧
    (convertTools ts).map (fun o => o.function.parameters) = ts.map MCPTool.inputSchema := by
  refine ⟨rfl, ?_, convertTools_types ts, ?_, ?_, ?_⟩ <;>
    simp [convertTools, List.map_map, Function.comp]

/-- Every tool-result message the loop ever appends is a plain dict with
role "tool" whose content is the rendering of some invocation's
result. -/
theorem processToolCalls_msgs_form (env : Env) (calls : List ToolCall) :
    ∀ m ∈ (processToolCalls env calls).msgs, ∃ nm args,
      m = ConvMsg.basic "tool" (renderToolResult (execute_tool env nm args)) := by
  induction calls with
  | nil => intro m hm; exact absurd hm (by simp [processToolCalls])
  | cons c rest ih =>
    intro m hm
    unfold processToolCalls at hm
    cases hp : parseArgs env.jsonLoads c.arguments with
    | none => rw [hp] at hm; exact absurd hm (by simp)
    | some args =>
      rw [hp] at hm
      simp only [List.mem_cons] at hm
      cases hm with
      | inl h => exact ⟨c.name, args, h⟩
      | inr h => exact ih m h

/-- Claim C10: whenever the second model request is issued, the
conversation it receives is the user message, then the model's tool-call
message appended verbatim, then only tool-result messages, each a
`role = "tool"` dict whose content is the rendering of an invocation's
result — `json.dumps` of the result when it is a dict (in particular the
captured failure `\x7b"error": message\x7d`) and the `str()` rendering
otherwise; the raw result object itself never appears. -/
theorem main_tool_message_form (env : Env) (msgs : List ConvMsg)
    (h : (main env).finalMessages = some msgs) :
    (∃ rm rest, msgs = ConvMsg.basic "user" user_msg :: ConvMsg.modelMsg rm :: rest ∧
      ∀ m ∈ rest, ∃ nm args,
        m = ConvMsg.basic "tool" (renderToolResult (execute_tool env nm args))) ∧
    (∀ fields, renderToolResult (.dict fields) = json_dumps fields) ∧
    (∀ s, renderToolResult (.other s) = s) := by
  refine ⟨?_, fun _ => rfl, fun _ => rfl⟩
  unfold main load_mcp_tools at h
  cases hl : env.listTools with
  | error e => rw [hl] at h; exact absurd h (by simp)
  | ok ts =>
    rw [hl] at h
    cases hc : env.chat1 with
    | error e => rw [hc] at h; exact absurd h (by simp)
    | ok resp =>
      rw [hc] at h
      simp only [] at h
      by_cases hn : resp.message.tool_calls = []
      · rw [if_pos hn] at h; exact absurd h (by simp)
      · rw [if_neg hn] at h
        cases hcr : (processToolCalls env resp.message.tool_calls).crash with
        | some e => rw [hcr] at h; exact absurd h (by simp)
        | none =>
          rw [hcr] at h
          cases h2 : env.chat2 (ConvMsg.basic "user" user_msg ::
              ConvMsg.modelMsg resp.message ::
              (processToolCalls env resp.message.tool_calls).msgs) with
          | error e =>
            rw [h2] at h
            simp only [Option.some.injEq] at h
            exact ⟨resp.message, _, h.symm,
              processToolCalls_msgs_form env resp.message.tool_calls⟩
          | ok fin =>
            rw [h2] at h
            simp only [Option.some.injEq] at h
            exact ⟨resp.message, _, h.symm,
              processToolCalls_msgs_form env resp.message.tool_calls⟩

/-- Claim C10 witness: the final messages of the demo run. -/
theorem main_tool_message_form_witness :
    (∃ rm rest,
      [ConvMsg.basic "user" user_msg, ConvMsg.modelMsg respDemo.message,
       ConvMsg.basic "tool" "Hello, John!", ConvMsg.basic "tool" "225"] =
        ConvMsg.basic "user" user_msg :: ConvMsg.modelMsg rm :: rest ∧
      ∀ m ∈ rest, ∃ nm args,
        m = ConvMsg.basic "tool" (renderToolResult (execute_tool envDemo nm args))) ∧
    (∀ fields, renderToolResult (.dict fields) = json_dumps fields) ∧
    (∀ s, renderToolResult (.other s) = s) :=
  main_tool_message_form envDemo
    [ConvMsg.basic "user" user_msg, ConvMsg.modelMsg respDemo.message,
     ConvMsg.basic "tool" "Hello, John!", ConvMsg.basic "tool" "225"]
    (by decide)

end MCPDemo
